import Mathlib

/-!
Shallow embedding of the ST-Grouping repository (prompt-entry grouping store,
anchor resolution, signature-gated reconciler, and the world-info grouping
module), together with theorems checking the specification's claims.

JavaScript values are modelled as follows: a raw stored grouping entry is a
record of optional fields (`none` models an absent field or a field whose
value fails the corresponding `typeof` check in the source); JS truthiness of
strings is explicit (`""` is falsy); JS numbers used as array indices are
modelled as `Int` (any non-natural or out-of-range index yields `none`, as
`array[i]` yields `undefined` in JS); the nondeterministically generated group
id (`createGroupId`) is modelled by `none` in the output record ("freshly
generated opaque id"), since no claim compares ids.
-/

/-- JS `a || b` for an optionally-present string `a`: an absent or empty
string is falsy. -/
def jsOrS (v : Option String) (d : String) : String :=
  match v with
  | some s => if s = "" then d else s
  | none => d

/-- JS array indexing `arr[i]` with a numeric index: `undefined` (`none`)
unless `0 ≤ i < arr.length`. -/
def jsIndex (keys : List String) (i : Int) : Option String :=
  if h : 0 ≤ i ∧ i.toNat < keys.length then some (keys.get ⟨i.toNat, h.2⟩) else none

/-- JS `Array.prototype.indexOf` on a string array: index of the first
occurrence, `-1` if absent. -/
def jsIndexOf (keys : List String) (s : String) : Int :=
  if s ∈ keys then ((keys.indexOf s : Nat) : Int) else -1

/-- A raw stored grouping entry (a plain JS object), as found in
`preset.extensions.entryGrouping`. A field is `none` when absent or when its
value would fail the source's `typeof` guard for that field. -/
structure RawEntry where
  id : Option String := none
  name : Option String := none
  groupName : Option String := none
  mode : Option String := none
  startIdentifier : Option String := none
  endIdentifier : Option String := none
  startIndex : Option Int := none
  endIndex : Option Int := none
  unresolved : Bool := false
  legacyStartIndex : Option Int := none
  legacyEndIndex : Option Int := none
deriving DecidableEq, Repr

/-- A normalized GroupRecord as produced by `normalizeForRead` /
`normalizeForWrite`. `id = none` models a freshly generated id. -/
structure GroupRecord where
  id : Option String := none
  name : String
  mode : String
  startIdentifier : Option String := none
  endIdentifier : Option String := none
  unresolved : Bool := false
  legacyStartIndex : Option Int := none
  legacyEndIndex : Option Int := none
deriving DecidableEq, Repr

def DEFAULT_GROUP_NAME : String := "分组"

def DEFAULT_MODE : String := "inclusive"

/-- `readGroupName`: `entry?.name || entry?.groupName || DEFAULT_GROUP_NAME`. -/
def readGroupName (e : RawEntry) : String :=
  jsOrS e.name (jsOrS e.groupName DEFAULT_GROUP_NAME)

/-- `isLegacyIndexGrouping`: both `startIndex` and `endIndex` are numbers. -/
def isLegacyIndexGrouping (e : RawEntry) : Bool :=
  e.startIndex.isSome && e.endIndex.isSome

/-- `isIdentifierAnchorGrouping`: `startIdentifier` or `endIdentifier` is a
string. -/
def isIdentifierAnchorGrouping (e : RawEntry) : Bool :=
  e.startIdentifier.isSome || e.endIdentifier.isSome

/-- `normalizeForRead(entry, orderedIdentifiers)` from
`src/lib/prompt-entry-grouping.js` (lines 73–123). The legacy-positional
branch is checked first; the anchor branch requires both anchors to be truthy
strings (`startIdentifier && endIdentifier`, so `""` falls to the unresolved
branch); unparseable entries yield `none`. -/
def normalizeForRead (e : RawEntry) (orderedIdentifiers : List String) :
    Option GroupRecord :=
  if isLegacyIndexGrouping e then
    match e.startIndex, e.endIndex with
    | some si, some ei =>
      match jsIndex orderedIdentifiers si, jsIndex orderedIdentifiers ei with
      | some s, some t =>
        some { id := e.id, name := readGroupName e,
               startIdentifier := some s, endIdentifier := some t,
               mode := jsOrS e.mode DEFAULT_MODE }
      | _, _ =>
        some { id := e.id, name := readGroupName e,
               mode := jsOrS e.mode DEFAULT_MODE, unresolved := true,
               legacyStartIndex := some si, legacyEndIndex := some ei }
    | _, _ => none
  else if isIdentifierAnchorGrouping e then
    match e.startIdentifier, e.endIdentifier with
    | some s, some t =>
      if s ≠ "" ∧ t ≠ "" then
        some { id := e.id, name := readGroupName e,
               startIdentifier := some s, endIdentifier := some t,
               mode := jsOrS e.mode DEFAULT_MODE }
      else
        some { id := e.id, name := readGroupName e,
               mode := jsOrS e.mode DEFAULT_MODE, unresolved := true,
               legacyStartIndex := e.legacyStartIndex,
               legacyEndIndex := e.legacyEndIndex }
    | _, _ =>
      some { id := e.id, name := readGroupName e,
             mode := jsOrS e.mode DEFAULT_MODE, unresolved := true,
             legacyStartIndex := e.legacyStartIndex,
             legacyEndIndex := e.legacyEndIndex }
  else
    none

/-- `normalizeForWrite(entry, orderedIdentifiers)` from
`src/lib/prompt-entry-grouping.js` (lines 131–176). The anchor branch is
checked first; it copies each anchor iff it is a string (`typeof` check, so
`""` is copied), and sets `unresolved` only if the input is already marked. -/
def normalizeForWrite (e : RawEntry) (orderedIdentifiers : List String) :
    Option GroupRecord :=
  if isIdentifierAnchorGrouping e then
    some { id := e.id, name := readGroupName e,
           mode := jsOrS e.mode DEFAULT_MODE,
           startIdentifier := e.startIdentifier,
           endIdentifier := e.endIdentifier,
           unresolved := e.unresolved,
           legacyStartIndex := e.legacyStartIndex,
           legacyEndIndex := e.legacyEndIndex }
  else if isLegacyIndexGrouping e then
    match e.startIndex, e.endIndex with
    | some si, some ei =>
      match jsIndex orderedIdentifiers si, jsIndex orderedIdentifiers ei with
      | some s, some t =>
        some { id := e.id, name := readGroupName e,
               startIdentifier := some s, endIdentifier := some t,
               mode := jsOrS e.mode DEFAULT_MODE }
      | _, _ =>
        some { id := e.id, name := readGroupName e,
               mode := jsOrS e.mode DEFAULT_MODE, unresolved := true,
               legacyStartIndex := some si, legacyEndIndex := some ei }
    | _, _ => none
  else
    none

/-- The persisted JSON shape of a normalized record, fed back to the
normalizers on the next read (`name` is stored as a string, `unresolved` is
stored only when true, legacy index fields only when numbers). -/
def GroupRecord.toRaw (g : GroupRecord) : RawEntry :=
  { id := g.id, name := some g.name, mode := some g.mode,
    startIdentifier := g.startIdentifier, endIdentifier := g.endIdentifier,
    unresolved := g.unresolved,
    legacyStartIndex := g.legacyStartIndex, legacyEndIndex := g.legacyEndIndex }

/-- `getWritableGroupings(rawGroupings, orderedIdentifiers)`:
`asArray(...).map(normalizeForWrite).filter(Boolean)`. -/
def getWritableGroupings (rawGroupings : List RawEntry)
    (orderedIdentifiers : List String) : List GroupRecord :=
  rawGroupings.filterMap (normalizeForWrite · orderedIdentifiers)

/-- `getAllPresetGroupings(presetName, orderedIdentifiers)`, with the host's
preset lookup abstracted to the stored `extensions.entryGrouping` list:
`asArray(grouping).map(normalizeForRead).filter(Boolean)`. -/
def getAllPresetGroupings (rawGroupings : List RawEntry)
    (orderedIdentifiers : List String) : List GroupRecord :=
  rawGroupings.filterMap (normalizeForRead · orderedIdentifiers)

/-- The normalization invariant of the spec's §3: a record is resolved (both
anchors present as strings) or flagged `unresolved`. -/
def recordInv (g : GroupRecord) : Prop :=
  (g.startIdentifier.isSome ∧ g.endIdentifier.isSome) ∨ g.unresolved = true

instance : DecidablePred recordInv := fun g => by
  unfold recordInv; infer_instance

/-- A record with its stored start and end anchors exchanged. -/
def swapAnchors (g : GroupRecord) : GroupRecord :=
  { g with startIdentifier := g.endIdentifier,
           endIdentifier := g.startIdentifier }

/-- The per-record resolution body of the loop in `getGroupedIdentifierSet`
(part_000 lines 1739–1752): an `unresolved` or anchor-less record is skipped;
otherwise both anchors are looked up with `indexOf`, the record is skipped
when either lookup is `-1`, and the identifiers at positions
`min(startIndex,endIndex) .. max(startIndex,endIndex)` (inclusive) are
collected, skipping falsy (empty) values. -/
def recordMembers (g : GroupRecord) (keys : List String) : List String :=
  if g.unresolved then []
  else
    match g.startIdentifier, g.endIdentifier with
    | some s, some t =>
      if jsIndexOf keys s = -1 ∨ jsIndexOf keys t = -1 then []
      else
        ((List.range' (min (jsIndexOf keys s) (jsIndexOf keys t)).toNat
            ((max (jsIndexOf keys s) (jsIndexOf keys t)).toNat + 1
              - (min (jsIndexOf keys s) (jsIndexOf keys t)).toNat)).filterMap
          (fun i : Nat => jsIndex keys (i : Int))).filter (fun id => id != "")
    | _, _ => []

/-- `getGroupedIdentifierSet(presetName, orderedIdentifiers)` with the host
lookup abstracted to the stored list; the JS `Set` is modelled as a
deduplicated list in insertion order. -/
def getGroupedIdentifierSet (rawGroupings : List RawEntry)
    (keys : List String) : List String :=
  ((getAllPresetGroupings rawGroupings keys).map
    (fun g => recordMembers g keys)).flatten.dedup

/-- The aggregate user-visible warning count of a reconciliation pass:
`groupings.filter((g) => g?.unresolved).length` (part_000 line 2182). -/
def unresolvedWarningCount (groupings : List GroupRecord) : Nat :=
  (groupings.filter (fun g => g.unresolved)).length

/-- `computeGroupingSignature(presetName, orderedIdentifiers, groupings)`
(part_000 lines 1693–1708): a deterministic string joining the preset name,
the ordered identifiers and each group's
`{name, startIdentifier, endIdentifier, mode, unresolved, legacy indices}`
with the control separators `\u001c`, `\u001d`, `\u001e`, `\u001f`. -/
def computeGroupingSignature (presetName : String)
    (orderedIdentifiers : List String) (groupings : List GroupRecord) :
    String :=
  let listKey := String.intercalate (Char.ofNat 31).toString orderedIdentifiers
  let groupingKey := String.intercalate (Char.ofNat 29).toString
    (groupings.map (fun g =>
      String.intercalate (Char.ofNat 30).toString
        [g.name, g.startIdentifier.getD "", g.endIdentifier.getD "", g.mode,
         if g.unresolved then "1" else "0",
         (match g.legacyStartIndex with | some i => toString i | none => ""),
         (match g.legacyEndIndex with | some i => toString i | none => "")]))
  presetName ++ (Char.ofNat 28).toString ++ listKey
    ++ (Char.ofNat 28).toString ++ groupingKey

/-- A grouping resolves in the current list when it is not flagged
`unresolved`, has both string anchors, and both `indexOf` lookups succeed —
the filter defining `resolvedGroupings` in `applyGroupingToList`
(part_000 lines 2187–2196). -/
def resolvesInList (g : GroupRecord) (keys : List String) : Bool :=
  !g.unresolved &&
    (match g.startIdentifier, g.endIdentifier with
     | some s, some t => jsIndexOf keys s != -1 && jsIndexOf keys t != -1
     | _, _ => false)

/-- The module-scoped reconciler state of part_000 (lines 1660–1685): the
last-applied signature/preset/list-node triple, whether the grouping
presentation currently exists in the live view (`hasGroupingUi`), and the
zero-resolved retry bookkeeping. The list-container DOM node is modelled by
an opaque `Nat` identity token. -/
structure EngineState where
  lastAppliedGroupingSignature : Option String := none
  lastAppliedGroupingPreset : Option String := none
  lastAppliedGroupingListNode : Option Nat := none
  uiExists : Bool := false
  zeroResolvedRetryPreset : Option String := none
  zeroResolvedRetryCount : Nat := 0
deriving DecidableEq, Repr

/-- The external inputs read by one reconciliation pass: the enabled flag,
`getLoadedPresetName()`, the list container (none when not found), the
`data-pm-identifier` attribute values of the list items, and the preset's
stored `extensions.entryGrouping`. -/
structure PassInput where
  entryGroupingEnabled : Bool := true
  presetName : Option String
  listNode : Option Nat
  itemAttrs : List String
  rawGroupings : List RawEntry
deriving DecidableEq, Repr

/-- Which exit `applyGroupingToList` takes: the early returns, the
duplicate-key abort, the empty-groupings cleanup, the signature-gated skip,
the zero-resolved retry (with the delays of the scheduled retries), or a
full rebuild. -/
inductive PassOutcome where
  | disabledSkip
  | noPresetSkip
  | noContainerSkip
  | emptyListSkip
  | duplicateAbort
  | clearedEmptyGroupings
  | signatureSkip
  | zeroResolvedRetry (delays : List Nat)
  | rebuilt
deriving DecidableEq, Repr

/-- `applyGroupingToList()` (part_000 lines 2092–2238) as a state transition.
The pass is single-threaded and the DOM does not change during it, so the
second item read (after `cleanupGroupingUi`) yields the same attributes as
the first; `bindTripleClickEvents`, theme vars, expand-state saving and the
actual DOM wrapping are presentation effects outside the model, with
`uiExists` tracking whether `.peg-group-header` elements exist afterwards. -/
def applyGroupingToList (s : EngineState) (i : PassInput) :
    EngineState × PassOutcome :=
  if !i.entryGroupingEnabled then (s, .disabledSkip)
  else
    match i.presetName with
    | none => (s, .noPresetSkip)
    | some presetName =>
      match i.listNode with
      | none => (s, .noContainerSkip)
      | some node =>
        if i.itemAttrs.isEmpty then (s, .emptyListSkip)
        else
          let preOrderedIdentifiers := i.itemAttrs.filter (fun a => a != "")
          if preOrderedIdentifiers.dedup.length ≠ preOrderedIdentifiers.length
          then (s, .duplicateAbort)
          else
            let preGroupings :=
              getAllPresetGroupings i.rawGroupings preOrderedIdentifiers
            let signature :=
              computeGroupingSignature presetName preOrderedIdentifiers
                preGroupings
            if preGroupings.isEmpty then
              ({ s with lastAppliedGroupingSignature := some signature,
                        lastAppliedGroupingPreset := some presetName,
                        lastAppliedGroupingListNode := some node,
                        uiExists := false }, .clearedEmptyGroupings)
            else if s.uiExists
                && s.lastAppliedGroupingSignature == some signature
                && s.lastAppliedGroupingPreset == some presetName
                && s.lastAppliedGroupingListNode == some node then
              (s, .signatureSkip)
            else
              let resolvedCount :=
                (preGroupings.filter
                  (fun g => resolvesInList g preOrderedIdentifiers)).length
              if resolvedCount = 0 then
                let baseCount :=
                  if s.zeroResolvedRetryPreset == some presetName
                  then s.zeroResolvedRetryCount else 0
                if baseCount < 3 then
                  ({ s with uiExists := false,
                            zeroResolvedRetryPreset := some presetName,
                            zeroResolvedRetryCount := baseCount + 1 },
                   .zeroResolvedRetry [450, 1200])
                else
                  ({ s with uiExists := false,
                            zeroResolvedRetryPreset := some presetName,
                            zeroResolvedRetryCount := baseCount },
                   .zeroResolvedRetry [])
              else
                ({ s with lastAppliedGroupingSignature := some signature,
                          lastAppliedGroupingPreset := some presetName,
                          lastAppliedGroupingListNode := some node,
                          uiExists := true,
                          zeroResolvedRetryPreset := none,
                          zeroResolvedRetryCount := 0 }, .rebuilt)

/-- The stored grouping entry that `addPresetGrouping(preset, "p2", "p3",
"Intro", keys)` persists: a resolved anchor record. -/
def introRaw : RawEntry :=
  { id := some "g1", name := some "Intro", mode := some "inclusive",
    startIdentifier := some "p2", endIdentifier := some "p3" }

/-- A concrete reconciliation-pass input: preset `"P"`, the four-entry list
`["p1","p2","p3","p4"]`, and the single stored group `introRaw`. -/
def fullListPass : PassInput :=
  { presetName := some "P", listNode := some 0,
    itemAttrs := ["p1", "p2", "p3", "p4"], rawGroupings := [introRaw] }

/-- The same pass after the entry `p2` was deleted from the host's list. -/
def deletedEntryPass : PassInput :=
  { presetName := some "P", listNode := some 0,
    itemAttrs := ["p1", "p3", "p4"], rawGroupings := [introRaw] }

/-- A pass whose single stored group has anchors pointing at entries absent
from the live list. -/
def strangerAnchorsPass : PassInput :=
  { presetName := some "P", listNode := some 0, itemAttrs := ["a"],
    rawGroupings := [{ startIdentifier := some "x",
                       endIdentifier := some "y" }] }


/-- JS truthiness of an optionally-present string, as an optional value:
absence and `""` are falsy. -/
def jsTruthyOpt (v : Option String) : Option String :=
  match v with
  | some s => if s = "" then none else some s
  | none => none

/-- `updatePresetGrouping(presetName, groupIndex, startIdentifier,
endIdentifier, groupName, orderedIdentifiers)` (lines 321–355 of
`src/lib/prompt-entry-grouping.js`), with the host lookup and save
abstracted to the stored `entryGrouping` list: the stored list is
re-normalized through `getWritableGroupings`; an index out of bounds of that
normalized list makes the call fail (`false`, store unchanged); otherwise
the provided fields are merged over the existing record (`id` preserved,
omitted fields falling back to existing values) and the updated normalized
list is persisted. -/
def updatePresetGrouping (stored : List RawEntry) (groupIndex : Int)
    (startIdentifier endIdentifier groupName : Option String)
    (keys : List String) : Bool × List RawEntry :=
  let groupings := getWritableGroupings stored keys
  if groupIndex < 0 ∨ (groupings.length : Int) ≤ groupIndex then
    (false, stored)
  else
    let existing :=
      (groupings.get? groupIndex.toNat).getD { name := "", mode := "" }
    let updated : GroupRecord :=
      { id := jsTruthyOpt existing.id,
        name := jsOrS groupName (jsOrS (some existing.name) DEFAULT_GROUP_NAME),
        mode := jsOrS (some existing.mode) DEFAULT_MODE,
        startIdentifier :=
          match startIdentifier with
          | some a => some a
          | none => existing.startIdentifier,
        endIdentifier :=
          match endIdentifier with
          | some b => some b
          | none => existing.endIdentifier }
    (true, (groupings.set groupIndex.toNat updated).map GroupRecord.toRaw)

/-- `removePresetGrouping(presetName, groupIndex, orderedIdentifiers)`
(lines 364–391), same abstraction: out-of-bounds index against the
normalized list fails with the store unchanged, otherwise the record is
spliced out and the normalized list persisted. -/
def removePresetGrouping (stored : List RawEntry) (groupIndex : Int)
    (keys : List String) : Bool × List RawEntry :=
  let groupings := getWritableGroupings stored keys
  if groupIndex < 0 ∨ (groupings.length : Int) ≤ groupIndex then
    (false, stored)
  else
    (true, (groupings.eraseIdx groupIndex.toNat).map GroupRecord.toRaw)


/-- A world-info group: `{ name, collapsed, entries }`; entry uids are
numeric (the module's own writes coerce every uid through `Number(...)`,
and `uidMatch` compares by value). -/
structure WIGroup where
  name : String := ""
  collapsed : Bool := false
  entries : List Nat := []
deriving DecidableEq, Repr

/-- One world's grouping data inside `settings.worldbooks[worldName]`: the
`groups` mapping (a JS object keyed by generated UUID strings, modelled as
an association list in property-insertion order, which JS preserves for
such keys) and the explicit `groupOrder` sequence. -/
structure WorldGroups where
  groups : List (String × WIGroup) := []
  groupOrder : List String := []
deriving DecidableEq, Repr

/-- JS `groups[id]` on the keyed mapping (group objects are always truthy). -/
def lookupGroup (groups : List (String × WIGroup)) (gid : String) :
    Option WIGroup :=
  (groups.find? (fun kv => kv.1 == gid)).map (fun kv => kv.2)

/-- `getGroupOrder(worldName)` (part_000 lines 96–120) for a world whose
`groupOrder` field exists: ids whose group was deleted are filtered out,
then ids of groups not yet in the order are appended in key order (checking
against the evolving sequence); the result is also stored back and
returned. -/
def getGroupOrder (w : WorldGroups) : List String :=
  (w.groups.map (fun kv => kv.1)).foldl
    (fun acc k => if k ∈ acc then acc else acc ++ [k])
    (w.groupOrder.filter (fun gid => (lookupGroup w.groups gid).isSome))

/-- `setGroupOrder(worldName, order)` (lines 127–137) for an existing
world: stores the given order verbatim. -/
def setGroupOrder (w : WorldGroups) (order : List String) : WorldGroups :=
  { w with groupOrder := order }

/-- The removal phase of `addEntryToGroup` (lines 149–155): in every group,
`findIndex`/`splice` removes the first occurrence of the uid, if any. -/
def removeEntryEverywhere (groups : List (String × WIGroup)) (uid : Nat) :
    List (String × WIGroup) :=
  groups.map (fun kv => (kv.1, { kv.2 with entries := kv.2.entries.erase uid }))

/-- `isEntryInGroup(groupEntries, entryUid)` (lines 295–297). -/
def isEntryInGroup (entries : List Nat) (uid : Nat) : Bool :=
  entries.any (fun u => u == uid)

/-- The push into the target group (line 159). -/
def pushEntryToGroup (groups : List (String × WIGroup)) (groupId : String)
    (uid : Nat) : List (String × WIGroup) :=
  groups.map (fun kv =>
    if kv.1 == groupId
    then (kv.1, { kv.2 with entries := kv.2.entries ++ [uid] })
    else kv)

/-- `addEntryToGroup(worldName, groupId, entryUid)` (lines 145–166): first
the uid is removed from every group; only then, if the target group exists
and does not still contain the uid, it is appended and `true` returned. -/
def addEntryToGroup (groups : List (String × WIGroup)) (groupId : String)
    (uid : Nat) : Bool × List (String × WIGroup) :=
  let removed := removeEntryEverywhere groups uid
  match lookupGroup removed groupId with
  | some g =>
    if isEntryInGroup g.entries uid then (false, removed)
    else (true, pushEntryToGroup removed groupId uid)
  | none => (false, removed)

/-- A concrete world used below: two groups, a stale id in the stored
order, and `"a"` missing from it. -/
def exampleWorld : WorldGroups :=
  { groups := [("a", {}), ("b", {})], groupOrder := ["b", "stale"] }

/-- A concrete groups mapping: `5` lives in group `"h"`. -/
def exampleWIGroups : List (String × WIGroup) :=
  [("g", { entries := [1] }), ("h", { entries := [5] })]


/-- Every record produced by `normalizeForRead` is resolved or flagged. -/
theorem normalizeForRead_recordInv (e : RawEntry) (keys : List String)
    (g : GroupRecord) (h : normalizeForRead e keys = some g) : recordInv g := by
  unfold normalizeForRead at h
  repeat' split at h
  all_goals first
    | (injection h with h; subst h; simp [recordInv])
    | injection h

/-- C4: legacy migration on read: `{startIndex: 1, endIndex: 3}` against
`["a","b","c","d"]` resolves to anchors `"b"`/`"d"`; against `["a"]` (too
short) it is kept unresolved with both legacy indices preserved. -/
theorem C4_legacy_migration_on_read :
    normalizeForRead { startIndex := some 1, endIndex := some 3 } ["a", "b", "c", "d"]
      = some { id := none, name := DEFAULT_GROUP_NAME, mode := DEFAULT_MODE,
               startIdentifier := some "b", endIdentifier := some "d" }
    ∧ normalizeForRead { startIndex := some 1, endIndex := some 3 } ["a"]
      = some { id := none, name := DEFAULT_GROUP_NAME, mode := DEFAULT_MODE,
               unresolved := true, legacyStartIndex := some 1,
               legacyEndIndex := some 3 } :=
  ⟨rfl, rfl⟩

/-- Write-normalization preserves the invariant for inputs that are not
unmarked single-anchor entries. -/
theorem normalizeForWrite_recordInv (e : RawEntry) (keys : List String)
    (g : GroupRecord)
    (he : isIdentifierAnchorGrouping e = true →
      (e.startIdentifier.isSome ∧ e.endIdentifier.isSome) ∨ e.unresolved = true)
    (h : normalizeForWrite e keys = some g) : recordInv g := by
  unfold normalizeForWrite at h
  repeat' split at h
  all_goals first
    | (injection h with h; subst h; simp_all [recordInv])
    | injection h

/-- Refutation of C2 as stated: `normalizeForWrite` over the plain-object
input `{startIdentifier: "a"}` outputs a record with exactly one string
anchor and no `unresolved` flag. -/
theorem C2_counterexample :
    ¬ ∀ g ∈ getWritableGroupings [{ startIdentifier := some "a" }] [],
        recordInv g := by
  decide

/-- Claim C2, amended: every record produced by `normalizeForRead` (over
arbitrary plain-object input) is resolved — both anchors present as
strings — or carries `unresolved: true`; `normalizeForWrite` guarantees the
same provided any anchor-bearing input itself has both string anchors or is
already marked `unresolved` (an unmarked single-anchor entry is passed
through without the flag). -/
theorem C2_amended_normalization_invariant :
    (∀ (e : RawEntry) (keys : List String) (g : GroupRecord),
        normalizeForRead e keys = some g → recordInv g)
    ∧ (∀ (e : RawEntry) (keys : List String) (g : GroupRecord),
        (isIdentifierAnchorGrouping e = true →
          (e.startIdentifier.isSome ∧ e.endIdentifier.isSome) ∨ e.unresolved = true) →
        normalizeForWrite e keys = some g → recordInv g) :=
  ⟨normalizeForRead_recordInv, normalizeForWrite_recordInv⟩

/-- Witness for the amended C2 at concrete inputs. -/
theorem C2_amended_witness :
    recordInv { id := none, name := DEFAULT_GROUP_NAME, mode := DEFAULT_MODE,
                startIdentifier := some "b", endIdentifier := some "d" }
    ∧ recordInv { id := none, name := DEFAULT_GROUP_NAME, mode := DEFAULT_MODE,
                  startIdentifier := some "x", endIdentifier := some "y" } :=
  ⟨C2_amended_normalization_invariant.1 { startIndex := some 1, endIndex := some 3 }
      ["a", "b", "c", "d"] _ rfl,
   C2_amended_normalization_invariant.2
      { startIdentifier := some "x", endIdentifier := some "y" } [] _
      (fun _ => Or.inl ⟨rfl, rfl⟩) rfl⟩

/-- Writing then re-reading a single entry whose anchors, name and mode are
non-empty strings reproduces those four fields exactly. -/
theorem writeThenRead (e : RawEntry) (keys : List String) (s t n m : String)
    (hs : e.startIdentifier = some s) (hs' : s ≠ "")
    (ht : e.endIdentifier = some t) (ht' : t ≠ "")
    (hn : e.name = some n) (hn' : n ≠ "")
    (hm : e.mode = some m) (hm' : m ≠ "") :
    (normalizeForWrite e keys).bind (fun w => normalizeForRead w.toRaw keys)
      = some { id := e.id, name := n, mode := m,
               startIdentifier := some s, endIdentifier := some t } := by
  simp [normalizeForWrite, isIdentifierAnchorGrouping, hs, ht, GroupRecord.toRaw,
        normalizeForRead, isLegacyIndexGrouping, readGroupName, jsOrS, hn, hn',
        hm, hm', hs', ht']

/-- Refutation of C3 as stated: the record `{name: "g", mode: "inclusive",
startIdentifier: "", endIdentifier: "b"}` has both anchors as strings, yet
`readAll(writeAll([r], ["b"]), ["b"])` turns it into an unresolved record
with no anchors at all (the empty string survives the write's `typeof` check
but is falsy in the read's `startIdentifier && endIdentifier` check). -/
theorem C3_counterexample :
    getAllPresetGroupings
        ((getWritableGroupings
            [{ name := some "g", mode := some "inclusive",
               startIdentifier := some "", endIdentifier := some "b" }] ["b"]).map
          GroupRecord.toRaw) ["b"]
      = [{ id := none, name := "g", mode := "inclusive", unresolved := true }]
    ∧ ({ id := none, name := "g", mode := "inclusive", unresolved := true }
        : GroupRecord).startIdentifier ≠ some "" :=
  ⟨rfl, by decide⟩

/-- Claim C3, amended: for every collection of records whose anchors, name
and mode are non-empty strings, `readAll(writeAll(records, keys), keys)`
yields records equal to the originals in the fields
`{name, startIdentifier, endIdentifier, mode}` (records with an empty-string
anchor, name or mode are excluded: the normalizers replace falsy names/modes
by the defaults and turn an empty-string anchor unresolved on read). -/
theorem C3_amended_round_trip (records : List RawEntry) (keys : List String)
    (h : ∀ e ∈ records,
      (∃ s, e.startIdentifier = some s ∧ s ≠ "")
      ∧ (∃ t, e.endIdentifier = some t ∧ t ≠ "")
      ∧ (∃ n, e.name = some n ∧ n ≠ "")
      ∧ (∃ m, e.mode = some m ∧ m ≠ "")) :
    (getAllPresetGroupings
        ((getWritableGroupings records keys).map GroupRecord.toRaw) keys).map
        (fun g => (g.name, g.startIdentifier, g.endIdentifier, g.mode))
      = records.map
        (fun e => (e.name.getD "", e.startIdentifier, e.endIdentifier,
          e.mode.getD "")) := by
  have key : getAllPresetGroupings
      ((getWritableGroupings records keys).map GroupRecord.toRaw) keys
      = records.filterMap
        (fun x => (normalizeForWrite x keys).bind
          (fun w => normalizeForRead w.toRaw keys)) := by
    simp [getAllPresetGroupings, getWritableGroupings, List.filterMap_map,
      List.filterMap_filterMap, Function.comp]
  rw [key]
  clear key
  induction records with
  | nil => rfl
  | cons e rest ih =>
    obtain ⟨⟨s, hs, hs'⟩, ⟨t, ht, ht'⟩, ⟨n, hn, hn'⟩, ⟨m, hm, hm'⟩⟩ :=
      h e (by simp)
    have hrest := ih (fun x hx => h x (by simp [hx]))
    simp only [List.filterMap_cons,
      writeThenRead e keys s t n m hs hs' ht ht' hn hn' hm hm']
    simp [hrest, hs, ht, hn, hm]

/-- Witness for the amended C3 at a concrete resolved record. -/
theorem C3_amended_witness :
    (getAllPresetGroupings
        ((getWritableGroupings
            [{ name := some "Intro", mode := some "inclusive",
               startIdentifier := some "p2", endIdentifier := some "p3" }]
            ["p1", "p2", "p3", "p4"]).map GroupRecord.toRaw)
        ["p1", "p2", "p3", "p4"]).map
        (fun g => (g.name, g.startIdentifier, g.endIdentifier, g.mode))
      = [("Intro", some "p2", some "p3", "inclusive")] := by
  have := C3_amended_round_trip
    [{ name := some "Intro", mode := some "inclusive",
       startIdentifier := some "p2", endIdentifier := some "p3" }]
    ["p1", "p2", "p3", "p4"]
    (by
      intro e he
      simp only [List.mem_singleton] at he
      subst he
      exact ⟨⟨"p2", rfl, by decide⟩, ⟨"p3", rfl, by decide⟩,
        ⟨"Intro", rfl, by decide⟩, ⟨"inclusive", rfl, by decide⟩⟩)
  simpa using this

/-- An unresolved record produced by `normalizeForRead` never carries
anchors. -/
theorem normalizeForRead_unresolved_anchors (e : RawEntry)
    (keys : List String) (g : GroupRecord)
    (h : normalizeForRead e keys = some g) (hu : g.unresolved = true) :
    g.startIdentifier = none ∧ g.endIdentifier = none := by
  unfold normalizeForRead at h
  repeat' split at h
  all_goals first
    | (injection h with h; subst h; simp_all)
    | injection h

/-- A JS numeric index that is a natural number reads the array like
`List.getElem?`. -/
theorem jsIndex_natCast (keys : List String) (i : ℕ) :
    jsIndex keys (i : Int) = keys[i]? := by
  unfold jsIndex
  rcases lt_or_ge i keys.length with h | h
  · rw [dif_pos ⟨Int.natCast_nonneg i, by simpa using h⟩]
    simp [List.getElem?_eq_getElem, h]
  · rw [dif_neg (by rintro ⟨-, h2⟩; simp at h2; omega)]
    exact (List.getElem?_eq_none (by simpa using h)).symm

theorem recordMembers_mem_iff (g : GroupRecord) (keys : List String)
    (hne : "" ∉ keys) (hu : g.unresolved = false) (s t : String)
    (hs : g.startIdentifier = some s) (ht : g.endIdentifier = some t)
    (hsm : s ∈ keys) (htm : t ∈ keys) (x : String) :
    x ∈ recordMembers g keys ↔
      ∃ i : ℕ, min (keys.indexOf s) (keys.indexOf t) ≤ i
        ∧ i ≤ max (keys.indexOf s) (keys.indexOf t) ∧ keys[i]? = some x := by
  unfold recordMembers
  rw [hu, hs, ht]
  simp only [Bool.false_eq_true, if_false, jsIndexOf, if_pos hsm, if_pos htm]
  rw [if_neg (by omega)]
  have hmin : (min ((keys.indexOf s : Nat) : Int) ((keys.indexOf t : Nat) : Int)).toNat
      = min (keys.indexOf s) (keys.indexOf t) := by omega
  have hmax : (max ((keys.indexOf s : Nat) : Int) ((keys.indexOf t : Nat) : Int)).toNat
      = max (keys.indexOf s) (keys.indexOf t) := by omega
  rw [hmin, hmax]
  simp only [List.mem_filter, List.mem_filterMap, List.mem_range'_1, jsIndex_natCast,
    bne_iff_ne, ne_eq, decide_not]
  constructor
  · rintro ⟨⟨i, hi, hx⟩, -⟩
    exact ⟨i, by omega, by omega, hx⟩
  · rintro ⟨i, h1, h2, hx⟩
    refine ⟨⟨i, by omega, hx⟩, ?_⟩
    have hxk : x ∈ keys := List.getElem?_mem hx
    exact fun hxe => hne (hxe ▸ hxk)

theorem recordMembers_eq_nil (g : GroupRecord) (keys : List String)
    (h : g.startIdentifier = none ∨ g.endIdentifier = none
      ∨ (∃ s, g.startIdentifier = some s ∧ s ∉ keys)
      ∨ (∃ t, g.endIdentifier = some t ∧ t ∉ keys)) :
    recordMembers g keys = [] := by
  unfold recordMembers
  by_cases hu : g.unresolved = true
  · rw [if_pos hu]
  · rw [if_neg hu]
    rcases hgs : g.startIdentifier with _ | s <;>
      rcases hgt : g.endIdentifier with _ | t <;> simp only []
    rcases h with h | h | ⟨s', hs', h⟩ | ⟨t', ht', h⟩
    · rw [hgs] at h; cases h
    · rw [hgt] at h; cases h
    · rw [hgs] at hs'
      injection hs' with hs'
      subst hs'
      rw [if_pos (Or.inl (by simp [jsIndexOf, h]))]
    · rw [hgt] at ht'
      injection ht' with ht'
      subst ht'
      rw [if_pos (Or.inr (by simp [jsIndexOf, h]))]

theorem recordMembers_swapAnchors (g : GroupRecord) (keys : List String) :
    recordMembers (swapAnchors g) keys = recordMembers g keys := by
  obtain ⟨gid, nm, md, si, ei, ur, l1, l2⟩ := g
  unfold recordMembers swapAnchors
  rcases si with _ | s <;> rcases ei with _ | t <;>
    simp [min_comm, max_comm, or_comm]

/-- Claim C7: anchor resolution is order-independent and inclusive. For
every group record produced by the store's read path and every ordered-key
list of truthy identifiers (every call site harvests the list through
`filter(Boolean)`, so `""` never occurs in it): a record with a missing
anchor, or an anchor absent from the list, contributes no members; when both
anchors occur in the list the member set is exactly the identifiers at
positions `min(startIndex, endIndex) .. max(startIndex, endIndex)` inclusive;
and which anchor is stored as start and which as end is irrelevant. -/
theorem C7_anchor_resolution_inclusive_order_independent
    (e : RawEntry) (keys0 keys : List String) (g : GroupRecord)
    (hg : normalizeForRead e keys0 = some g) (hne : "" ∉ keys) :
    ((g.startIdentifier = none ∨ g.endIdentifier = none
        ∨ (∃ s, g.startIdentifier = some s ∧ s ∉ keys)
        ∨ (∃ t, g.endIdentifier = some t ∧ t ∉ keys)) →
      recordMembers g keys = [])
    ∧ (∀ s t, g.startIdentifier = some s → g.endIdentifier = some t →
        s ∈ keys → t ∈ keys →
        ∀ x, x ∈ recordMembers g keys ↔
          ∃ i : ℕ, min (keys.indexOf s) (keys.indexOf t) ≤ i
            ∧ i ≤ max (keys.indexOf s) (keys.indexOf t) ∧ keys[i]? = some x)
    ∧ recordMembers (swapAnchors g) keys = recordMembers g keys := by
  refine ⟨recordMembers_eq_nil g keys, ?_, recordMembers_swapAnchors g keys⟩
  intro s t hs ht hsm htm x
  have hu : g.unresolved = false := by
    cases hb : g.unresolved with
    | false => rfl
    | true =>
      obtain ⟨h1, -⟩ := normalizeForRead_unresolved_anchors e keys0 g hg hb
      rw [h1] at hs; cases hs
  exact recordMembers_mem_iff g keys hne hu s t hs ht hsm htm x

/-- Witness for C7 at a concrete record and key list. -/
theorem C7_witness :
    "p2" ∈ recordMembers
        { id := none, name := DEFAULT_GROUP_NAME, mode := DEFAULT_MODE,
          startIdentifier := some "p2", endIdentifier := some "p3" }
        ["p1", "p2", "p3"]
    ∧ recordMembers
        (swapAnchors
          { id := none, name := DEFAULT_GROUP_NAME, mode := DEFAULT_MODE,
            startIdentifier := some "p2", endIdentifier := some "p3" })
        ["p1", "p2", "p3"]
      = recordMembers
        { id := none, name := DEFAULT_GROUP_NAME, mode := DEFAULT_MODE,
          startIdentifier := some "p2", endIdentifier := some "p3" }
        ["p1", "p2", "p3"] := by
  have h := C7_anchor_resolution_inclusive_order_independent
    { startIdentifier := some "p2", endIdentifier := some "p3" }
    ["p1", "p2", "p3"] ["p1", "p2", "p3"]
    { id := none, name := DEFAULT_GROUP_NAME, mode := DEFAULT_MODE,
      startIdentifier := some "p2", endIdentifier := some "p3" }
    rfl (by decide)
  refine ⟨?_, h.2.2⟩
  exact (h.2.1 "p2" "p3" rfl rfl (by decide) (by decide) "p2").mpr
    ⟨1, by decide, by decide, by decide⟩

/-- Claim C5: signature-gated idempotence. If a pass runs from a state with
no last-applied signature, with a loaded preset, a found container, a
non-empty duplicate-free identifier list, at least one stored group and at
least one of them resolvable, then the first call performs a rebuild (after
which the presentation exists), and a second call with no intervening change
to the preset name, records, identifier list or container reference is a
no-op skip: it returns before any cleanup or rebuild because the newly
computed signature, preset name and container reference all equal the
last-applied ones. -/
theorem C5_signature_gated_idempotence
    (s0 : EngineState) (i : PassInput) (p : String) (n : Nat)
    (henabled : i.entryGroupingEnabled = true)
    (hpreset : i.presetName = some p)
    (hnode : i.listNode = some n)
    (hitems : i.itemAttrs ≠ [])
    (hnodup : (i.itemAttrs.filter (fun a => a != "")).dedup.length
      = (i.itemAttrs.filter (fun a => a != "")).length)
    (hgroups : getAllPresetGroupings i.rawGroupings
      (i.itemAttrs.filter (fun a => a != "")) ≠ [])
    (hresolved : ((getAllPresetGroupings i.rawGroupings
        (i.itemAttrs.filter (fun a => a != ""))).filter
        (fun g => resolvesInList g (i.itemAttrs.filter (fun a => a != "")))).length
      ≠ 0)
    (hfresh : s0.lastAppliedGroupingSignature = none) :
    ∃ s1, applyGroupingToList s0 i = (s1, PassOutcome.rebuilt)
      ∧ s1.uiExists = true
      ∧ applyGroupingToList s1 i = (s1, PassOutcome.signatureSkip) := by
  have hempty : i.itemAttrs.isEmpty = false := by
    cases hI : i.itemAttrs
    · exact absurd hI hitems
    · rfl
  unfold applyGroupingToList
  rw [henabled, hpreset, hnode]
  simp only [Bool.not_true, Bool.false_eq_true, if_false, hempty]
  rw [if_neg (fun hcon => hcon hnodup)]
  rw [if_neg (by simpa [List.isEmpty_iff] using hgroups)]
  rw [if_neg (by simp [hfresh])]
  rw [if_neg hresolved]
  refine ⟨_, rfl, rfl, ?_⟩
  rw [if_neg (fun hcon => hcon hnodup)]
  rw [if_neg (by simpa [List.isEmpty_iff] using hgroups)]
  rw [if_pos (by simp)]

/-- Witness for C5: a fresh engine, preset `"P"`, entries
`["p1","p2","p3","p4"]` and one group anchored at `("p2","p3")`: the first
pass rebuilds, the second skips. -/
theorem C5_witness :
    (applyGroupingToList ({} : EngineState) fullListPass).2
      = PassOutcome.rebuilt
    ∧ (applyGroupingToList
        (applyGroupingToList ({} : EngineState) fullListPass).1
        fullListPass).2 = PassOutcome.signatureSkip := by
  obtain ⟨s1, h1, hui, h2⟩ := C5_signature_gated_idempotence
    ({} : EngineState) fullListPass "P" 0 rfl rfl rfl (by decide) (by decide)
    (by decide) (by decide) rfl
  refine ⟨?_, ?_⟩
  · rw [h1]
  · rw [h1]
    show (applyGroupingToList s1 _).2 = PassOutcome.signatureSkip
    rw [h2]

/-- After any pass that performs a rebuild, the zero-resolved retry counter
and preset are reset. -/
theorem rebuilt_resets_retry (s : EngineState) (i : PassInput)
    (s' : EngineState)
    (h : applyGroupingToList s i = (s', PassOutcome.rebuilt)) :
    s'.zeroResolvedRetryCount = 0 ∧ s'.zeroResolvedRetryPreset = none := by
  unfold applyGroupingToList at h
  simp only [] at h
  repeat' split at h
  all_goals injection h with h1 h2
  all_goals first
    | (subst h1; exact ⟨rfl, rfl⟩)
    | cases h2

/-- The zero-resolved branch of a pass: retry bookkeeping and scheduling. -/
theorem zeroResolved_retry_behavior
    (s : EngineState) (i : PassInput) (p : String) (n : Nat)
    (henabled : i.entryGroupingEnabled = true)
    (hpreset : i.presetName = some p)
    (hnode : i.listNode = some n)
    (hitems : i.itemAttrs ≠ [])
    (hnodup : (i.itemAttrs.filter (fun a => a != "")).dedup.length
      = (i.itemAttrs.filter (fun a => a != "")).length)
    (hgroups : getAllPresetGroupings i.rawGroupings
      (i.itemAttrs.filter (fun a => a != "")) ≠ [])
    (hzero : ((getAllPresetGroupings i.rawGroupings
        (i.itemAttrs.filter (fun a => a != ""))).filter
        (fun g => resolvesInList g (i.itemAttrs.filter (fun a => a != "")))).length
      = 0)
    (hui : s.uiExists = false) :
    (s.zeroResolvedRetryPreset = some p → s.zeroResolvedRetryCount < 3 →
      applyGroupingToList s i
        = ({ s with
             uiExists := false,
             zeroResolvedRetryPreset := some p,
             zeroResolvedRetryCount := s.zeroResolvedRetryCount + 1 },
           PassOutcome.zeroResolvedRetry [450, 1200]))
    ∧ (s.zeroResolvedRetryPreset = some p → 3 ≤ s.zeroResolvedRetryCount →
      applyGroupingToList s i
        = ({ s with
             uiExists := false,
             zeroResolvedRetryPreset := some p,
             zeroResolvedRetryCount := s.zeroResolvedRetryCount },
           PassOutcome.zeroResolvedRetry []))
    ∧ (s.zeroResolvedRetryPreset ≠ some p →
      applyGroupingToList s i
        = ({ s with
             uiExists := false,
             zeroResolvedRetryPreset := some p,
             zeroResolvedRetryCount := 1 },
           PassOutcome.zeroResolvedRetry [450, 1200])) := by
  have hempty : i.itemAttrs.isEmpty = false := by
    cases hI : i.itemAttrs
    · exact absurd hI hitems
    · rfl
  refine ⟨fun hsame hlt => ?_, fun hsame hge => ?_, fun hdiff => ?_⟩ <;>
    (unfold applyGroupingToList
     rw [henabled, hpreset, hnode]
     simp only [Bool.not_true, Bool.false_eq_true, if_false, hempty]
     rw [if_neg (fun hcon => hcon hnodup)]
     rw [if_neg (by simpa [List.isEmpty_iff] using hgroups)]
     rw [if_neg (by simp [hui])]
     rw [if_pos hzero])
  · rw [if_pos (show (s.zeroResolvedRetryPreset == some p) = true by
        simp [hsame])]
    rw [if_pos hlt]
  · rw [if_pos (show (s.zeroResolvedRetryPreset == some p) = true by
        simp [hsame])]
    rw [if_neg (show ¬(s.zeroResolvedRetryCount < 3) by omega)]
  · rw [if_neg (show ¬((s.zeroResolvedRetryPreset == some p) = true) by
        simp [hdiff])]
    rw [if_pos (show (0 : ℕ) < 3 by norm_num)]

/-- Claim C8: bounded zero-resolved retry. When a pass (with a loaded
preset, a found container, a non-empty duplicate-free identifier list and no
live presentation to skip over) resolves zero groups while at least one
group record exists and is not flagged unresolved, the engine schedules
retries with escalating delays 450ms and 1200ms, at most 3 times for the
same preset (the counter increments up to 3, after which it schedules
nothing and gives up silently); the counter restarts at 1 whenever the
active preset changes, and any pass that resolves at least one group
(a rebuild) resets the counter and preset. -/
theorem C8_bounded_zero_resolved_retry
    (s : EngineState) (i : PassInput) (p : String) (n : Nat)
    (henabled : i.entryGroupingEnabled = true)
    (hpreset : i.presetName = some p)
    (hnode : i.listNode = some n)
    (hitems : i.itemAttrs ≠ [])
    (hnodup : (i.itemAttrs.filter (fun a => a != "")).dedup.length
      = (i.itemAttrs.filter (fun a => a != "")).length)
    (hgroups : getAllPresetGroupings i.rawGroupings
      (i.itemAttrs.filter (fun a => a != "")) ≠ [])
    (_hsome : ∃ g ∈ getAllPresetGroupings i.rawGroupings
      (i.itemAttrs.filter (fun a => a != "")), g.unresolved = false)
    (hzero : ((getAllPresetGroupings i.rawGroupings
        (i.itemAttrs.filter (fun a => a != ""))).filter
        (fun g => resolvesInList g (i.itemAttrs.filter (fun a => a != "")))).length
      = 0)
    (hui : s.uiExists = false) :
    ((s.zeroResolvedRetryPreset = some p → s.zeroResolvedRetryCount < 3 →
      applyGroupingToList s i
        = ({ s with
             uiExists := false,
             zeroResolvedRetryPreset := some p,
             zeroResolvedRetryCount := s.zeroResolvedRetryCount + 1 },
           PassOutcome.zeroResolvedRetry [450, 1200]))
    ∧ (s.zeroResolvedRetryPreset = some p → 3 ≤ s.zeroResolvedRetryCount →
      applyGroupingToList s i
        = ({ s with
             uiExists := false,
             zeroResolvedRetryPreset := some p,
             zeroResolvedRetryCount := s.zeroResolvedRetryCount },
           PassOutcome.zeroResolvedRetry []))
    ∧ (s.zeroResolvedRetryPreset ≠ some p →
      applyGroupingToList s i
        = ({ s with
             uiExists := false,
             zeroResolvedRetryPreset := some p,
             zeroResolvedRetryCount := 1 },
           PassOutcome.zeroResolvedRetry [450, 1200])))
    ∧ (∀ (s' : EngineState) (i' : PassInput) (s'' : EngineState),
        applyGroupingToList s' i' = (s'', PassOutcome.rebuilt) →
        s''.zeroResolvedRetryCount = 0
          ∧ s''.zeroResolvedRetryPreset = none) :=
  ⟨zeroResolved_retry_behavior s i p n henabled hpreset hnode hitems hnodup
    hgroups hzero hui,
   fun s' i' s'' h => rebuilt_resets_retry s' i' s'' h⟩

/-- Witness for C8: a fresh engine and a pass whose single non-unresolved
group has anchors absent from the list schedules the first retry pair and
sets the counter to 1. -/
theorem C8_witness :
    applyGroupingToList ({} : EngineState) strangerAnchorsPass
      = ({ uiExists := false, zeroResolvedRetryPreset := some "P",
           zeroResolvedRetryCount := 1 },
         PassOutcome.zeroResolvedRetry [450, 1200]) := by
  have h := C8_bounded_zero_resolved_retry ({} : EngineState)
    strangerAnchorsPass "P" 0 rfl rfl rfl (by decide) (by decide) (by decide)
    (by decide) (by decide) rfl
  exact h.1.2.2 (by decide)

/-- Refutation of C1 as stated: after `p2` is deleted from the host's
entries, re-reading the group created from anchors `("p2","p3")` against
`["p1","p3","p4"]` yields a record that still carries both anchors and does
NOT have `unresolved: true` (the read path never checks anchor records
against the key list), and the aggregate warning count of unresolved groups
is 0, not 1. -/
theorem C1_counterexample :
    getAllPresetGroupings [introRaw] ["p1", "p3", "p4"]
      = [{ id := some "g1", name := "Intro", mode := "inclusive",
           startIdentifier := some "p2", endIdentifier := some "p3",
           unresolved := false }]
    ∧ unresolvedWarningCount
        (getAllPresetGroupings [introRaw] ["p1", "p3", "p4"]) = 0 :=
  ⟨rfl, rfl⟩

/-- Claim C1, amended: after `p2` is deleted, re-reading via
`getAllPresetGroupings` against `["p1","p3","p4"]` yields the record
unchanged, with its anchors preserved and no `unresolved` flag; the
aggregate warning count of unresolved groups for that pass is 0; the group
resolves to no members, and the reconciliation pass takes the
zero-resolved retry path (scheduling retries at 450ms and 1200ms) instead of
warning. -/
theorem C1_amended_deleted_anchor_behavior :
    getAllPresetGroupings [introRaw] ["p1", "p3", "p4"]
      = [{ id := some "g1", name := "Intro", mode := "inclusive",
           startIdentifier := some "p2", endIdentifier := some "p3" }]
    ∧ unresolvedWarningCount
        (getAllPresetGroupings [introRaw] ["p1", "p3", "p4"]) = 0
    ∧ recordMembers
        { id := some "g1", name := "Intro", mode := "inclusive",
          startIdentifier := some "p2", endIdentifier := some "p3" }
        ["p1", "p3", "p4"] = []
    ∧ (applyGroupingToList ({} : EngineState) deletedEntryPass).2
      = PassOutcome.zeroResolvedRetry [450, 1200] := by
  refine ⟨rfl, rfl, by decide, by decide⟩

/-- Claim C6: bounds on mutation. `updatePresetGrouping` and
`removePresetGrouping` called with `groupIndex = -1` or with
`groupIndex` equal to the length of the current normalized record list both
surface a failure result and leave the stored grouping container
unchanged. -/
theorem C6_mutation_bounds (stored : List RawEntry) (keys : List String)
    (a b c : Option String) :
    updatePresetGrouping stored (-1) a b c keys = (false, stored)
    ∧ updatePresetGrouping stored
        ((getWritableGroupings stored keys).length : Int) a b c keys
      = (false, stored)
    ∧ removePresetGrouping stored (-1) keys = (false, stored)
    ∧ removePresetGrouping stored
        ((getWritableGroupings stored keys).length : Int) keys
      = (false, stored) := by
  refine ⟨?_, ?_, ?_, ?_⟩ <;>
    simp only [updatePresetGrouping, removePresetGrouping]
  · rw [if_pos (Or.inl (by norm_num))]
  · rw [if_pos (Or.inr le_rfl)]
  · rw [if_pos (Or.inl (by norm_num))]
  · rw [if_pos (Or.inr le_rfl)]

/-- Appending the missing keys at the end reaches exactly the union of the
stored order and the key set. -/
theorem foldl_appendMissing_mem (keys order : List String) (x : String) :
    x ∈ keys.foldl (fun acc k => if k ∈ acc then acc else acc ++ [k]) order
      ↔ x ∈ order ∨ x ∈ keys := by
  induction keys generalizing order with
  | nil => simp
  | cons k ks ih =>
    simp only [List.foldl_cons]
    by_cases hk : k ∈ order
    · rw [if_pos hk, ih]
      constructor
      · rintro (h | h)
        · exact Or.inl h
        · exact Or.inr (List.mem_cons_of_mem k h)
      · rintro (h | h)
        · exact Or.inl h
        · rcases List.mem_cons.mp h with rfl | h
          · exact Or.inl hk
          · exact Or.inr h
    · rw [if_neg hk, ih]
      simp only [List.mem_append, List.mem_singleton, List.mem_cons]
      tauto

/-- Appending the missing keys preserves freedom from duplicates. -/
theorem foldl_appendMissing_nodup (keys order : List String)
    (h : order.Nodup) :
    (keys.foldl (fun acc k => if k ∈ acc then acc else acc ++ [k])
      order).Nodup := by
  induction keys generalizing order with
  | nil => simpa
  | cons k ks ih =>
    simp only [List.foldl_cons]
    by_cases hk : k ∈ order
    · rw [if_pos hk]; exact ih _ h
    · rw [if_neg hk]
      exact ih _ (by simp [List.nodup_append, h, hk])

/-- Refutation of C9 as stated: after `setGroupOrder` stores the duplicated
order `["g1","g1"]` for a world whose only group is `g1`, `getGroupOrder`
returns `["g1","g1"]` — the read prunes stale ids and appends missing ones
but never deduplicates. -/
theorem C9_counterexample :
    getGroupOrder (setGroupOrder { groups := [("g1", {})] } ["g1", "g1"])
      = ["g1", "g1"]
    ∧ ¬ (getGroupOrder
        (setGroupOrder { groups := [("g1", {})] } ["g1", "g1"])).Nodup :=
  ⟨rfl, by decide⟩

/-- Claim C9, amended: on every read, `getGroupOrder` returns a sequence
whose members are exactly the group-id keys currently present in the world's
groups mapping — stale ids pruned, missing ids appended — and the sequence
is duplicate-free provided the stored order was itself duplicate-free
(a duplicated order stored via `setGroupOrder` survives the read). -/
theorem C9_amended_group_order_invariant (w : WorldGroups) :
    (∀ x, x ∈ getGroupOrder w ↔ x ∈ w.groups.map (fun kv => kv.1))
    ∧ (w.groupOrder.Nodup → (getGroupOrder w).Nodup) := by
  constructor
  · intro x
    unfold getGroupOrder
    rw [foldl_appendMissing_mem]
    constructor
    · rintro (h | h)
      · obtain ⟨-, hfind⟩ := List.mem_filter.mp h
        have hsome : (w.groups.find? (fun kv => kv.1 == x)).isSome = true := by
          simpa [lookupGroup] using hfind
        obtain ⟨kv, hkv⟩ := Option.isSome_iff_exists.mp hsome
        have h1 : kv ∈ w.groups := List.mem_of_find?_eq_some hkv
        have h2 : kv.1 = x := by simpa using List.find?_some hkv
        exact List.mem_map.mpr ⟨kv, h1, h2⟩
      · exact h
    · intro h
      exact Or.inr h
  · intro h
    exact foldl_appendMissing_nodup _ _ (h.filter _)

/-- Witness for the amended C9 at a concrete world with a stale id and a
missing id. -/
theorem C9_amended_witness :
    ("b" ∈ getGroupOrder exampleWorld
      ↔ "b" ∈ exampleWorld.groups.map (fun kv => kv.1))
    ∧ (getGroupOrder exampleWorld).Nodup :=
  ⟨(C9_amended_group_order_invariant exampleWorld).1 "b",
   (C9_amended_group_order_invariant exampleWorld).2 (by decide)⟩

/-- `lookupGroup` after the removal phase: same keys, entries with the first
occurrence of the uid spliced out. -/
theorem lookup_removeEntryEverywhere (groups : List (String × WIGroup))
    (uid : Nat) (gid : String) :
    lookupGroup (removeEntryEverywhere groups uid) gid
      = (lookupGroup groups gid).map
          (fun g => { g with entries := g.entries.erase uid }) := by
  unfold lookupGroup removeEntryEverywhere
  rw [List.find?_map]
  simp only [Option.map_map]
  rfl

/-- When every group holds the uid at most once, no group holds it after the
removal phase. -/
theorem removed_no_occurrence (groups : List (String × WIGroup)) (uid : Nat)
    (hdup : ∀ kv ∈ groups, (kv.2.entries).count uid ≤ 1) :
    ∀ kv ∈ removeEntryEverywhere groups uid, uid ∉ kv.2.entries := by
  intro kv hkv
  unfold removeEntryEverywhere at hkv
  obtain ⟨kv0, h0, rfl⟩ := List.mem_map.mp hkv
  intro hmem
  have hc : (kv0.2.entries.erase uid).count uid = kv0.2.entries.count uid - 1 :=
    List.count_erase_self uid kv0.2.entries
  have hpos : 0 < (kv0.2.entries.erase uid).count uid :=
    List.count_pos_iff.mpr hmem
  have := hdup kv0 h0
  omega

/-- Refutation of C10 as stated: in a world whose group `"g"` holds the uid
`5` twice, `addEntryToGroup(groups, "g", 5)` finds the target group present
yet returns `false` and appends nothing — the removal phase deletes only the
first occurrence, so the containment re-check fires. -/
theorem C10_counterexample :
    addEntryToGroup [("g", { entries := [5, 5] })] "g" 5
      = (false, [("g", { entries := [5] })])
    ∧ (lookupGroup [("g", { entries := [5, 5] })] "g").isSome = true :=
  ⟨rfl, rfl⟩

/-- Claim C10, amended: for every world state in which each group's entry
list holds the uid at most once, `addEntryToGroup` first removes the uid
from every group; the call succeeds exactly when the target groupId exists,
in which case the uid ends up in the target group and in no other; and when
the target is absent the call returns `false` yet the resulting state is
exactly the removal-phase state — the uid has still been removed from
whatever group previously contained it. -/
theorem C10_amended_non_atomic_add (groups : List (String × WIGroup))
    (groupId : String) (uid : Nat)
    (hdup : ∀ kv ∈ groups, (kv.2.entries).count uid ≤ 1) :
    (addEntryToGroup groups groupId uid).1
      = (lookupGroup groups groupId).isSome
    ∧ ((lookupGroup groups groupId).isSome = false →
        (addEntryToGroup groups groupId uid).2
          = removeEntryEverywhere groups uid)
    ∧ (∀ kv ∈ (addEntryToGroup groups groupId uid).2,
        kv.1 ≠ groupId → uid ∉ kv.2.entries)
    ∧ ((lookupGroup groups groupId).isSome = true →
        ∀ kv ∈ (addEntryToGroup groups groupId uid).2,
          kv.1 = groupId → uid ∈ kv.2.entries) := by
  have hrm := removed_no_occurrence groups uid hdup
  cases hlk : lookupGroup groups groupId with
  | none =>
    have hrmlk : lookupGroup (removeEntryEverywhere groups uid) groupId
        = none := by
      rw [lookup_removeEntryEverywhere, hlk]; rfl
    unfold addEntryToGroup
    simp only [hrmlk]
    exact ⟨rfl, fun _ => trivial, fun kv hkv _ => hrm kv hkv,
      fun hcon => absurd hcon (by simp)⟩
  | some g =>
    have hrmlk : lookupGroup (removeEntryEverywhere groups uid) groupId
        = some { g with entries := g.entries.erase uid } := by
      rw [lookup_removeEntryEverywhere, hlk]; rfl
    have hnotin : uid ∉ g.entries.erase uid := by
      obtain ⟨kv, hfind, hsnd⟩ : ∃ kv,
          groups.find? (fun kv => kv.1 == groupId) = some kv ∧ kv.2 = g := by
        unfold lookupGroup at hlk
        cases hf : groups.find? (fun kv => kv.1 == groupId) with
        | none => rw [hf] at hlk; cases hlk
        | some kv =>
          rw [hf] at hlk
          exact ⟨kv, rfl, by injection hlk⟩
      have hcount := hdup kv (List.mem_of_find?_eq_some hfind)
      rw [hsnd] at hcount
      intro hin
      have hpos : 0 < (g.entries.erase uid).count uid :=
        List.count_pos_iff.mpr hin
      have hc : (g.entries.erase uid).count uid = g.entries.count uid - 1 :=
        List.count_erase_self uid g.entries
      omega
    have hb : isEntryInGroup (g.entries.erase uid) uid = false := by
      cases hany : (g.entries.erase uid).any (fun u => u == uid) with
      | false => exact hany
      | true =>
        obtain ⟨u, hu, hequ⟩ := List.any_eq_true.mp hany
        have hueq : u = uid := by simpa using hequ
        exact (hnotin (hueq ▸ hu)).elim
    unfold addEntryToGroup
    simp only [hrmlk, hb, Bool.false_eq_true, if_false]
    refine ⟨rfl, fun hcon => absurd hcon (by simp), ?_, fun _ => ?_⟩
    · intro kv hkv hne
      unfold pushEntryToGroup at hkv
      obtain ⟨kv0, h0, heq⟩ := List.mem_map.mp hkv
      by_cases hk : (kv0.1 == groupId) = true
      · rw [if_pos hk] at heq
        exact absurd (by rw [← heq]; simpa using hk) hne
      · rw [if_neg hk] at heq
        subst heq
        exact hrm kv0 h0
    · intro kv hkv hfst
      unfold pushEntryToGroup at hkv
      obtain ⟨kv0, h0, heq⟩ := List.mem_map.mp hkv
      by_cases hk : (kv0.1 == groupId) = true
      · rw [if_pos hk] at heq
        rw [← heq]
        simp
      · rw [if_neg hk] at heq
        subst heq
        exact absurd (by simpa using hfst) (by simpa using hk)

/-- Witness for the amended C10 at a concrete world: adding `5` to `"g"`
succeeds (the target exists), and the resulting state holds `5` exactly in
`"g"`, removed from `"h"`. -/
theorem C10_amended_witness :
    (addEntryToGroup exampleWIGroups "g" 5).1
      = (lookupGroup exampleWIGroups "g").isSome
    ∧ ((lookupGroup exampleWIGroups "g").isSome = false →
        (addEntryToGroup exampleWIGroups "g" 5).2
          = removeEntryEverywhere exampleWIGroups 5) :=
  ⟨(C10_amended_non_atomic_add exampleWIGroups "g" 5 (by decide)).1,
   (C10_amended_non_atomic_add exampleWIGroups "g" 5 (by decide)).2.1⟩
